import Mathlib

/-!
Verification development for a minimal HTTP/1.1 server (Rust).

The embedding models the core of `src/lib.rs` (request parsing, ordered route
matching with prefix wildcards, response construction and serialization) and
the `Body::write_headers` helper of `src/main.rs`.  Strings are modelled as
`List Char`; raw byte buffers as `List Nat`.  Rust's `str::split` on the fixed
one- and two-character separators used by the source (`" "`, `"\r\n"`, `": "`)
is modelled by the structurally recursive `splitOne` / `splitPair` /
`split_oncePair` below, which scan left to right for the first or every
non-overlapping occurrence, exactly as Rust does for these separators.
`HashMap` is modelled as an association list whose `insertH` replaces the
first binding of an existing key in place and appends fresh keys; only the
lookup semantics (last insert wins) is contractual, since `HashMap` iteration
order is unspecified.  A Rust panic is modelled as an explicit outcome
(`MatchOutcome.panicked`); fallible parsing returns `Except`.
-/

namespace HttpSrv

abbrev Str := List Char

/-- The carriage-return character of the "\r\n" line separator. -/
def CRc : Char := '\r'

/-- The line-feed character of the "\r\n" line separator. -/
def LFc : Char := '\n'

/-- The space character: token separator of the request line. -/
def SPc : Char := ' '

/-- The colon character of the ": " header separator. -/
def COLc : Char := ':'

/-- The NUL character stripped by `data.replace("\0", "")`. -/
def NULc : Char := Char.ofNat 0

/-- The two-character list "\r\n". -/
def rnS : Str := [CRc, LFc]

/-- Split on a single-character separator, mirroring Rust `str::split`
on a one-character pattern: every occurrence separates, adjacent
occurrences produce empty segments, and the result is never empty. -/
def splitOne (c : Char) : Str → List Str
  | [] => [[]]
  | x :: xs =>
    if x = c then [] :: splitOne c xs
    else
      match splitOne c xs with
      | [] => [[x]]
      | s :: ss => (x :: s) :: ss

/-- Split on a two-character separator, mirroring Rust `str::split` on a
two-character pattern such as "\r\n": scans left to right, consuming each
non-overlapping occurrence. -/
def splitPair (c1 c2 : Char) : Str → List Str
  | [] => [[]]
  | [x] => [[x]]
  | x :: y :: xs =>
    if x = c1 ∧ y = c2 then [] :: splitPair c1 c2 xs
    else
      match splitPair c1 c2 (y :: xs) with
      | [] => [[x]]
      | s :: ss => (x :: s) :: ss

/-- Rust `str::split_once` on a two-character separator such as ": ":
splits at the first occurrence, or returns `none` when absent. -/
def split_oncePair (c1 c2 : Char) : Str → Option (Str × Str)
  | [] => none
  | [_] => none
  | x :: y :: xs =>
    if x = c1 ∧ y = c2 then some ([], xs)
    else
      match split_oncePair c1 c2 (y :: xs) with
      | none => none
      | some (a, b) => some (x :: a, b)

/-- Rust `str::contains` for a fixed substring pattern. -/
def containsSub (sub : Str) : Str → Bool
  | [] => sub.isEmpty
  | c :: cs => sub.isPrefixOf (c :: cs) || containsSub sub cs

/-- Rust `str::strip_suffix`: remove a suffix when present. -/
def strip_suffix (l suf : Str) : Option Str :=
  if suf.isSuffixOf l then some (l.take (l.length - suf.length)) else none

/-- `data.replace("\0", "")` from `Request::parse`: single-character
replacement by the empty string, i.e. a filter. -/
def stripNul (s : Str) : Str := s.filter (fun c => c ≠ NULc)

/-- `HashMap::insert` modelled on an association list: replace the first
binding of an existing key in place, append a fresh key at the end. -/
def insertH : List (Str × Str) → Str → Str → List (Str × Str)
  | [], k, v => [(k, v)]
  | (k', v') :: m, k, v =>
    if k' = k then (k, v) :: m else (k', v') :: insertH m k v

/-- `HashMap::get` modelled on an association list. -/
def lookupH : List (Str × Str) → Str → Option Str
  | [], _ => none
  | (k', v) :: m, k => if k' = k then some v else lookupH m k

/-- The error outcomes of `Request::from_utf8` / `Request::parse`, one
constructor per `&'static str` error message in the source:
`invalidUtf8` = "Error converting http request to string",
`invalidHttpData` = "invalid http data",
`missingMethod` = "missing method in request",
`missingPath` = "missing path in request". -/
inductive ParseErr where
  | invalidUtf8
  | invalidHttpData
  | missingMethod
  | missingPath
deriving DecidableEq

/-- The `Request` struct of `src/lib.rs`. -/
structure Request where
  path : Str
  method : Str
  headers : List (Str × Str)
  body : Str
deriving DecidableEq

/-- One step of the header loop of `Request::parse`: split the line at the
first ": " and insert, ignore the line when the separator is absent. -/
def hdrStep (acc : List (Str × Str)) (ln : Str) : List (Str × Str) :=
  match split_oncePair COLc SPc ln with
  | some kv => insertH acc kv.1 kv.2
  | none => acc

/-- `Request::parse` of `src/lib.rs`: strip NUL bytes, split on "\r\n",
take method and path as the first two space-separated tokens of the first
line, fold every remaining line through the header step, and take the last
"\r\n"-segment of the whole (stripped) buffer as the body. -/
def parse (data : Str) : Except ParseErr Request :=
  match splitPair CRc LFc (stripNul data) with
  | [] => .error .invalidHttpData
  | line :: rest =>
    match (splitOne SPc line).get? 0 with
    | none => .error .missingMethod
    | some m =>
      match (splitOne SPc line).get? 1 with
      | none => .error .missingPath
      | some p =>
        .ok { path := p, method := m,
              headers := rest.foldl hdrStep [],
              body := (splitPair CRc LFc (stripNul data)).getLastD [] }

/-- Whether a byte is a UTF-8 continuation byte (0x80..0xBF). -/
def isCont (b : Nat) : Bool := decide (128 ≤ b) && decide (b < 192)

/-- Strict UTF-8 decoding of a byte sequence, as validated by Rust's
`String::from_utf8`: rejects overlong encodings, surrogates, code points
above U+10FFFF, and truncated or stray continuation bytes. -/
def utf8Decode : List Nat → Option Str
  | [] => some []
  | b :: bs =>
    if b < 128 then
      (utf8Decode bs).map (fun cs => Char.ofNat b :: cs)
    else if b < 194 then none
    else if b < 224 then
      match bs with
      | b1 :: rest =>
        if isCont b1 then
          (utf8Decode rest).map
            (fun cs => Char.ofNat ((b - 192) * 64 + (b1 - 128)) :: cs)
        else none
      | [] => none
    else if b < 240 then
      match bs with
      | b1 :: b2 :: rest =>
        if (if b = 224 then decide (160 ≤ b1) && decide (b1 < 192)
            else if b = 237 then decide (128 ≤ b1) && decide (b1 < 160)
            else isCont b1) && isCont b2 then
          (utf8Decode rest).map
            (fun cs =>
              Char.ofNat ((b - 224) * 4096 + (b1 - 128) * 64 + (b2 - 128)) :: cs)
        else none
      | _ => none
    else if b < 245 then
      match bs with
      | b1 :: b2 :: b3 :: rest =>
        if (if b = 240 then decide (144 ≤ b1) && decide (b1 < 192)
            else if b = 244 then decide (128 ≤ b1) && decide (b1 < 144)
            else isCont b1) && isCont b2 && isCont b3 then
          (utf8Decode rest).map
            (fun cs =>
              Char.ofNat ((b - 240) * 262144 + (b1 - 128) * 4096
                + (b2 - 128) * 64 + (b3 - 128)) :: cs)
        else none
      | _ => none
    else none

/-- `Request::from_utf8` of `src/lib.rs`: validate the byte buffer as
UTF-8, then parse. -/
def from_utf8 (data : List Nat) : Except ParseErr Request :=
  match utf8Decode data with
  | none => .error .invalidUtf8
  | some cs => parse cs

/-- The number of bytes of the UTF-8 encoding of a character: Rust
`str::len` is the byte length, which `Response::new` uses for the
Content-Length header. -/
def charUtf8Len (c : Char) : Nat :=
  if c.val < 128 then 1
  else if c.val < 2048 then 2
  else if c.val < 65536 then 3
  else 4

/-- The UTF-8 byte length of a string (Rust `str::len`). -/
def utf8Len (s : Str) : Nat := (s.map charUtf8Len).sum

/-- The decimal rendering of a number, as produced by `Display` /
`format!` for Rust integers. -/
def natStr (n : Nat) : Str := (Nat.repr n).data

/-- The double-quote character used by the `Json` `Display` impl. -/
def QUOTc : Char := Char.ofNat 34

/-- One `"{k}": "{v}"` entry of the `Json` `Display` impl. -/
def jsonEntry (kv : Str × Str) : Str :=
  [QUOTc] ++ kv.1 ++ [QUOTc, COLc, SPc, QUOTc] ++ kv.2 ++ [QUOTc]

/-- The `Display` impl of `Json` in `src/lib.rs`, over the map's entry
list in iteration order: an opening brace, the quoted entries separated
by commas (no comma after the entry at index `len - 1`), a closing
brace. -/
def jsonDisplay (m : List (Str × Str)) : Str :=
  [Char.ofNat 123]
    ++ (m.enum.map (fun iv =>
          jsonEntry iv.2 ++ (if iv.1 ≠ m.length - 1 then [','] else []))).flatten
    ++ [Char.ofNat 125]

/-- The `Response` struct of `src/lib.rs`.  `data` holds the `Display`
output of the boxed payload (`none` when the response has no body). -/
structure Response where
  code : Nat
  data : Option Str
  headers : List (Str × Str)

namespace Response

/-- `Response::new`: a response whose headers map is pre-loaded with
Content-Type: text/plain and Content-Length: the byte length of the
payload's `Display` output. -/
def new (code : Nat) (data : Str) : Response :=
  { code := code,
    data := some data,
    headers :=
      insertH (insertH [] (("Content-Type").data) (("text/plain").data))
        (("Content-Length").data) (natStr (utf8Len data)) }

/-- `Response::empty`: no data, no headers. -/
def empty (code : Nat) : Response :=
  { code := code, data := none, headers := [] }

/-- `Response::add_header`: insert one header. -/
def add_header (r : Response) (k v : Str) : Response :=
  { r with headers := insertH r.headers k v }

/-- `Response::json`: a response whose body is the `Json` display of the
map and whose only header is Content-Type: application/json. -/
def json (code : Nat) (m : List (Str × Str)) : Response :=
  add_header { code := code, data := some (jsonDisplay m), headers := [] }
    (("Content-Type").data) (("application/json").data)

/-- `Response::to_string`: each header as `{key}: {val}\r\n`, a blank
line exactly when at least one header is present, the body when present,
and a trailing "\r\n". -/
def to_string (r : Response) : Str :=
  (r.headers.map (fun kv => kv.1 ++ [COLc, SPc] ++ kv.2 ++ rnS)).flatten
    ++ (if r.headers.length ≠ 0 then rnS else [])
    ++ (match r.data with | some d => d | none => [])
    ++ rnS

end Response

/-- The status line written by `Router::serve` (and, identically, by
`handle` in `src/main.rs`): `format!("HTTP/1.1 {} {}\r\n", code,
if code == 200 { "OK" } else { " " })`. -/
def status_line (code : Nat) : Str :=
  ("HTTP/1.1 ").data ++ natStr code ++ (" ").data
    ++ (if code = 200 then ("OK").data else (" ").data) ++ rnS

/-- The `Handler` type alias of `src/lib.rs`. -/
abbrev Handler := Request → Response

/-- The `Route` struct of `src/lib.rs`. -/
structure Route where
  path : Str
  methods : List Str
  handler : Handler

/-- The `Router` struct of `src/lib.rs`. -/
structure Router where
  host : Str
  routes : List Route

/-- `Router::handle_func`: build a route from the arguments and push it
at the end of the route list.  No validation of any kind is performed. -/
def handle_func (r : Router) (path : Str) (handler : Handler)
    (methods : List Str) : Router :=
  { r with
    routes := r.routes ++ [{ path := path, methods := methods, handler := handler }] }

/-- Outcome of `Route::match_route`: the closure passed to `find` can
panic (via `.expect("wildcard ':?' must be at the end")`), so a run
either panics, returns the first matching route, or returns `None`. -/
inductive MatchOutcome where
  | panicked
  | matched (r : Route)
  | unmatched

/-- The wildcard marker ":?". -/
def markS : Str := (":?").data

/-- The body of the closure of `Route::match_route` for one route:
when the pattern contains ":?" the marker is stripped as a suffix
(`none` models the panic of `.expect` when ":?" is not a suffix) and the
request path must start with what remains; otherwise the pattern must
equal the path exactly. -/
def route_matches (rpath path : Str) : Option Bool :=
  if containsSub markS rpath then
    match strip_suffix rpath markS with
    | some pre => some (pre.isPrefixOf path)
    | none => none
  else some (rpath = path)

/-- `Route::match_route`: `routes.iter().find(...)` — test the routes in
registration order and return the first whose pattern matches, halting
with a panic as soon as the closure panics. -/
def match_route : List Route → Str → MatchOutcome
  | [], _ => .unmatched
  | r :: rs, path =>
    match route_matches r.path path with
    | none => .panicked
    | some true => .matched r
    | some false => match_route rs path

/-- `method_not_allowed_handler` of `src/lib.rs`. -/
def method_not_allowed_handler : Handler :=
  fun _ => Response.new 405 (("method not allowed").data)

/-- `not_found_handler` of `src/lib.rs`. -/
def not_found_handler : Handler :=
  fun _ => Response.new 404 (("page not found").data)

/-- The routing/dispatch step of `Router::serve`: select the route by
`match_route` (`none` models the task dying on the match panic), then
the handler: the route's own handler when the method is allowed,
`method_not_allowed_handler` when the route matched but the method is
not in its list, `not_found_handler` when no route matched. -/
def serve_dispatch (routes : List Route) (req : Request) : Option Response :=
  match match_route routes req.path with
  | .panicked => none
  | .matched route =>
    some (if !(route.methods.contains req.method)
          then method_not_allowed_handler req
          else route.handler req)
  | .unmatched => some (not_found_handler req)

/-- `Body::write_headers` of `src/main.rs`: the exact bytes written for a
body of the given contents and MIME type. -/
def write_headers (contents : List Nat) (mime : Str) : Str :=
  ("Content-Type: ").data ++ mime ++ rnS
    ++ ("Content-Length: ").data ++ natStr contents.length ++ rnS ++ rnS

/-! Specification-side definitions, written from the spec's words rather
than the source, for comparison with the embedded code. -/

/-- Spec-side matcher: a wildcard pattern (one that ends in the marker
":?") matches when the pattern with the marker stripped is a prefix of
the request path; a literal pattern matches by exact equality. -/
def spec_matches (pat path : Str) : Bool :=
  if markS.isSuffixOf pat then
    (pat.take (pat.length - markS.length)).isPrefixOf path
  else pat = path

/-- A route pattern is well formed when the wildcard marker ":?", if it
occurs at all, occurs as the pattern's final suffix. -/
def wf_pat (pat : Str) : Bool :=
  !(containsSub markS pat) || markS.isSuffixOf pat

/-- A wire-level request of the shape
`<METHOD> <PATH> HTTP/1.1\r\n<h1>\r\n...<hn>\r\n\r\n<body>`. -/
def mkWire (m p : Str) (hs : List Str) (b : Str) : Str :=
  m ++ [SPc] ++ p ++ [SPc] ++ ("HTTP/1.1").data ++ rnS
    ++ (hs.map (fun h => h ++ rnS)).flatten ++ rnS ++ b

/-- Scan a list of lines for the value of the last line that splits at
the first ": " into the given name and some value, starting from a
default. -/
def lastAux (lns : List Str) (acc : Option Str) (k : Str) : Option Str :=
  lns.foldl
    (fun a ln =>
      match split_oncePair COLc SPc ln with
      | some kv => if kv.1 = k then some kv.2 else a
      | none => a) acc

/-- The space-separated tokens of the request line (the segment before
the first "\r\n" of the NUL-stripped buffer). -/
def reqLineToks (d : Str) : List Str :=
  splitOne SPc ((splitPair CRc LFc (stripNul d)).headD [])

/-! Concrete fixtures for witnesses and counterexamples. -/

/-- A placeholder handler, standing for the `test` handlers of the
source's doc examples. -/
def hDummy : Handler := fun _ => Response.empty 200

/-- The wildcard route "/te:?" of the `handle_func` doc example. -/
def rteWild : Route :=
  { path := ("/te:?").data, methods := [("GET").data], handler := hDummy }

/-- The literal route "/test" of the `handle_func` doc example,
registered after the wildcard route. -/
def rteLit : Route :=
  { path := ("/test").data, methods := [("GET").data], handler := hDummy }

/-- A route whose pattern holds the wildcard marker mid-pattern. -/
def badRoute : Route :=
  { path := ("/a:?b").data, methods := [], handler := hDummy }

/-- A GET-only literal route for "/x". -/
def r405x : Route :=
  { path := ("/x").data, methods := [("GET").data], handler := hDummy }

/-- A GET request for the unregistered path "/nope". -/
def req404 : Request :=
  { path := ("/nope").data, method := ("GET").data, headers := [], body := [] }

/-- A POST request for "/x". -/
def reqPost : Request :=
  { path := ("/x").data, method := ("POST").data, headers := [], body := [] }

/-- A router with no routes. -/
def router0 : Router := { host := ("127.0.0.1:4221").data, routes := [] }

/-- Concrete well-formed wire request used by witnesses. -/
def wireW : Str :=
  mkWire (("GET").data) (("/p").data) [("Host: x").data] (("ok").data)

/-- A wire request whose only "Name: Value" line sits after the blank
line terminating the (empty) header block, i.e. in the body. -/
def wireBodyHdr : Str := ("GET / HTTP/1.1\r\n\r\nFoo: bar").data

/-- Whether a decode attempt succeeded. -/
def isOkE (e : Except ParseErr Request) : Bool :=
  match e with
  | .ok _ => true
  | .error _ => false

/-- The request produced by parsing
"GET / HTTP/1.1\r\nA: 1\r\nA: 2": the duplicate header name "A" keeps
only the later value. -/
def reqDup : Request :=
  { path := ("/").data, method := ("GET").data,
    headers := [((("A").data), (("2").data))], body := ("A: 2").data }

/-! Lemmas about the splitting primitives. -/

theorem splitOne_ne_nil (c : Char) (l : Str) : splitOne c l ≠ [] := by
  induction l with
  | nil => simp [splitOne]
  | cons x xs ih =>
    simp only [splitOne]
    split
    · simp
    · cases h : splitOne c xs <;> simp

theorem splitOne_no_sep (c : Char) (a : Str) (h : c ∉ a) : splitOne c a = [a] := by
  induction a with
  | nil => rfl
  | cons x xs ih =>
    simp only [List.mem_cons, not_or] at h
    simp only [splitOne]
    rw [if_neg (fun he => h.1 he.symm), ih h.2]

theorem splitOne_append (c : Char) (a b : Str) (h : c ∉ a) :
    splitOne c (a ++ c :: b) = a :: splitOne c b := by
  induction a with
  | nil => simp [splitOne]
  | cons x xs ih =>
    simp only [List.mem_cons, not_or] at h
    have step : splitOne c ((x :: xs) ++ c :: b) =
        (if x = c then [] :: splitOne c (xs ++ c :: b)
         else match splitOne c (xs ++ c :: b) with
              | [] => [[x]]
              | s :: ss => (x :: s) :: ss) := rfl
    rw [step, if_neg (fun he => h.1 he.symm), ih h.2]

theorem splitPair_ne_nil (c1 c2 : Char) (l : Str) : splitPair c1 c2 l ≠ [] := by
  induction l with
  | nil => simp [splitPair]
  | cons x xs ih =>
    cases xs with
    | nil => simp [splitPair]
    | cons y ys =>
      simp only [splitPair]
      split
      · simp
      · cases h : splitPair c1 c2 (y :: ys) <;> simp

theorem splitPair_no_sep (c1 c2 : Char) (a : Str) (h : c1 ∉ a) :
    splitPair c1 c2 a = [a] := by
  induction a with
  | nil => rfl
  | cons x xs ih =>
    cases xs with
    | nil => rfl
    | cons y ys =>
      have hx : ¬(x = c1) := fun he => h (by simp [he])
      have h2 : c1 ∉ (y :: ys : Str) := fun hm => h (List.mem_cons_of_mem _ hm)
      have step : splitPair c1 c2 (x :: y :: ys) =
          (if x = c1 ∧ y = c2 then [] :: splitPair c1 c2 ys
           else match splitPair c1 c2 (y :: ys) with
                | [] => [[x]]
                | s :: ss => (x :: s) :: ss) := rfl
      rw [step, if_neg (fun hc => hx hc.1), ih h2]

theorem splitPair_append (c1 c2 : Char) (b : Str) (a : Str) (h : c1 ∉ a) :
    splitPair c1 c2 (a ++ c1 :: c2 :: b) = a :: splitPair c1 c2 b := by
  induction a with
  | nil => simp [splitPair]
  | cons x xs ih =>
    have hx : ¬(x = c1) := fun he => h (by simp [he])
    cases xs with
    | nil =>
      have hb : splitPair c1 c2 (c1 :: c2 :: b) = [] :: splitPair c1 c2 b := by
        simp [splitPair]
      have step : splitPair c1 c2 ((x :: []) ++ c1 :: c2 :: b) =
          (if x = c1 ∧ c1 = c2 then [] :: splitPair c1 c2 (c2 :: b)
           else match splitPair c1 c2 (c1 :: c2 :: b) with
                | [] => [[x]]
                | s :: ss => (x :: s) :: ss) := rfl
      rw [step, if_neg (fun hc => hx hc.1), hb]
    | cons y ys =>
      have h2 : c1 ∉ (y :: ys : Str) := fun hm => h (List.mem_cons_of_mem _ hm)
      have step : splitPair c1 c2 ((x :: y :: ys) ++ c1 :: c2 :: b) =
          (if x = c1 ∧ y = c2 then [] :: splitPair c1 c2 (ys ++ c1 :: c2 :: b)
           else match splitPair c1 c2 ((y :: ys) ++ c1 :: c2 :: b) with
                | [] => [[x]]
                | s :: ss => (x :: s) :: ss) := rfl
      rw [step, if_neg (fun hc => hx hc.1), ih h2]

/-! Lemmas about substring containment. -/

theorem containsSub_append_self (sub : Str) (t : Str) :
    containsSub sub (t ++ sub) = true := by
  induction t with
  | nil =>
    cases sub with
    | nil => rfl
    | cons c cs => simp [containsSub, List.isPrefixOf_iff_prefix]
  | cons x t ih => simp [containsSub, ih]

theorem containsSub_of_isSuffixOf (sub pat : Str)
    (h : sub.isSuffixOf pat = true) : containsSub sub pat = true := by
  rw [List.isSuffixOf_iff_suffix] at h
  obtain ⟨t, ht⟩ := h
  rw [← ht]
  exact containsSub_append_self sub t

theorem containsSub_mid (s a b : Str) : containsSub s (a ++ (s ++ b)) = true := by
  induction a with
  | nil =>
    cases s with
    | nil =>
      cases b with
      | nil => rfl
      | cons y ys => simp [containsSub]
    | cons c cs => simp [containsSub, List.isPrefixOf_iff_prefix]
  | cons x a ih => simp [containsSub, ih]

/-! Lemmas about the header map. -/

theorem lookup_insertH (m : List (Str × Str)) (k' v' k : Str) :
    lookupH (insertH m k' v') k = if k' = k then some v' else lookupH m k := by
  induction m with
  | nil => rfl
  | cons a m ih =>
    obtain ⟨ak, av⟩ := a
    by_cases ha : ak = k'
    · subst ha
      simp only [insertH, if_pos rfl, lookupH]
      by_cases hk : ak = k
      · simp [hk, lookupH]
      · simp [hk, lookupH]
    · simp only [insertH, if_neg ha, lookupH, ih]
      by_cases hak : ak = k
      · have : ¬(k' = k) := fun he => ha (hak.trans he.symm)
        simp [hak, this]
      · simp [hak]

theorem lookup_foldl_hdrStep (lns : List Str) :
    ∀ (m : List (Str × Str)) (k : Str),
      lookupH (List.foldl hdrStep m lns) k = lastAux lns (lookupH m k) k := by
  induction lns with
  | nil => intro m k; rfl
  | cons ln rest ih =>
    intro m k
    have hstep : lookupH (hdrStep m ln) k =
        (match split_oncePair COLc SPc ln with
         | some kv => if kv.1 = k then some kv.2 else lookupH m k
         | none => lookupH m k) := by
      unfold hdrStep
      cases hsp : split_oncePair COLc SPc ln with
      | none => rfl
      | some kv => simp [lookup_insertH]
    show lookupH (List.foldl hdrStep (hdrStep m ln) rest) k = _
    rw [ih (hdrStep m ln) k, hstep]
    rfl

theorem lastAux_isSome_mono (lns : List Str) :
    ∀ (acc : Option Str) (k : Str), acc.isSome = true →
      (lastAux lns acc k).isSome = true := by
  induction lns with
  | nil => intro acc k h; exact h
  | cons ln rest ih =>
    intro acc k h
    show (lastAux rest _ k).isSome = true
    apply ih
    cases hsp : split_oncePair COLc SPc ln with
    | none => simpa [hsp] using h
    | some kv =>
      by_cases hk : kv.1 = k <;> simp [hsp, hk, h]

theorem lastAux_isSome_of_mem (lns : List Str) :
    ∀ (acc : Option Str) (k v : Str) (ln : Str), ln ∈ lns →
      split_oncePair COLc SPc ln = some (k, v) →
      (lastAux lns acc k).isSome = true := by
  induction lns with
  | nil => intro _ _ _ _ hm; cases hm
  | cons l rest ih =>
    intro acc k v ln hm hsp
    rcases List.mem_cons.mp hm with he | hm2
    · subst he
      show (lastAux rest _ k).isSome = true
      apply lastAux_isSome_mono
      simp [hsp]
    · exact ih _ k v ln hm2 hsp

/-! Splitting a well-formed wire request into its lines and tokens. -/

theorem stripNul_id (l : Str) (h : NULc ∉ l) : stripNul l = l := by
  rw [stripNul, List.filter_eq_self]
  intro a ha
  have hne : a ≠ NULc := fun he => h (he ▸ ha)
  simpa using hne

theorem hdr_split (b : Str) (hb : CRc ∉ b) :
    ∀ hs : List Str, (∀ h ∈ hs, CRc ∉ h) →
      splitPair CRc LFc
        ((hs.map (fun h => h ++ rnS)).flatten ++ CRc :: LFc :: b) =
      hs ++ [[], b] := by
  intro hs
  induction hs with
  | nil =>
    intro
    have h0 : splitPair CRc LFc (([] : Str) ++ CRc :: LFc :: b) =
        [] :: splitPair CRc LFc b := splitPair_append CRc LFc b [] (by simp)
    simp only [List.nil_append] at h0
    simp only [List.map_nil, List.flatten_nil, List.nil_append]
    rw [h0, splitPair_no_sep _ _ b hb]
  | cons hh t ih =>
    intro hcr
    have h1 : CRc ∉ hh := hcr hh (by simp)
    have h2 : ∀ h ∈ t, CRc ∉ h := fun h hm => hcr h (by simp [hm])
    have hshape :
        (((hh :: t).map (fun h => h ++ rnS)).flatten ++ CRc :: LFc :: b) =
        hh ++ CRc :: LFc ::
          ((t.map (fun h => h ++ rnS)).flatten ++ CRc :: LFc :: b) := by
      simp [rnS, List.append_assoc]
    rw [hshape, splitPair_append _ _ _ _ h1, ih h2]
    simp

theorem wire_split (m p b : Str) (hs : List Str)
    (hm : CRc ∉ m) (hp : CRc ∉ p) (hh : ∀ h ∈ hs, CRc ∉ h) (hb : CRc ∉ b) :
    splitPair CRc LFc (mkWire m p hs b) =
      (m ++ [SPc] ++ p ++ [SPc] ++ ("HTTP/1.1").data) :: (hs ++ [[], b]) := by
  have hline : CRc ∉ (m ++ [SPc] ++ p ++ [SPc] ++ ("HTTP/1.1").data) := by
    intro hmem
    simp only [List.mem_append, List.mem_singleton] at hmem
    rcases hmem with ((((h1 | h2) | h3) | h4) | h5)
    · exact hm h1
    · exact absurd h2 (by decide)
    · exact hp h3
    · exact absurd h4 (by decide)
    · exact absurd h5 (by decide)
  have hshape : mkWire m p hs b =
      (m ++ [SPc] ++ p ++ [SPc] ++ ("HTTP/1.1").data)
        ++ CRc :: LFc ::
          ((hs.map (fun h => h ++ rnS)).flatten ++ CRc :: LFc :: b) := by
    simp [mkWire, rnS, List.append_assoc]
  rw [hshape, splitPair_append _ _ _ _ hline, hdr_split b hb hs hh]

theorem reqLine_tokens (m p : Str) (hm : SPc ∉ m) (hp : SPc ∉ p) :
    splitOne SPc (m ++ [SPc] ++ p ++ [SPc] ++ ("HTTP/1.1").data) =
      [m, p, ("HTTP/1.1").data] := by
  have hshape : m ++ [SPc] ++ p ++ [SPc] ++ ("HTTP/1.1").data =
      m ++ SPc :: (p ++ SPc :: ("HTTP/1.1").data) := by
    simp [List.append_assoc]
  rw [hshape, splitOne_append _ _ _ hm, splitOne_append _ _ _ hp,
    splitOne_no_sep _ _ (by decide)]

theorem parse_mkWire (m p b : Str) (hs : List Str)
    (hm1 : SPc ∉ m) (hm2 : CRc ∉ m) (hm3 : NULc ∉ m)
    (hp1 : SPc ∉ p) (hp2 : CRc ∉ p) (hp3 : NULc ∉ p)
    (hh : ∀ ln ∈ hs, CRc ∉ ln ∧ NULc ∉ ln)
    (hb1 : CRc ∉ b) (hb2 : NULc ∉ b) :
    parse (mkWire m p hs b) =
      .ok { path := p, method := m,
            headers := (hs ++ [[], b]).foldl hdrStep [], body := b } := by
  have hnul : NULc ∉ mkWire m p hs b := by
    intro hmem
    rw [mkWire] at hmem
    rcases List.mem_append.mp hmem with hmem | hmem
    case inr => exact hb2 hmem
    rcases List.mem_append.mp hmem with hmem | hmem
    case inr => exact absurd hmem (by decide)
    rcases List.mem_append.mp hmem with hmem | hmem
    case inr =>
      rw [List.mem_flatten] at hmem
      obtain ⟨l, hl, hmem2⟩ := hmem
      obtain ⟨ln, hln, hle⟩ := List.mem_map.mp hl
      rw [← hle] at hmem2
      rcases List.mem_append.mp hmem2 with h9 | h9
      · exact (hh ln hln).2 h9
      · exact absurd h9 (by decide)
    rcases List.mem_append.mp hmem with hmem | hmem
    case inr => exact absurd hmem (by decide)
    rcases List.mem_append.mp hmem with hmem | hmem
    case inr => exact absurd hmem (by decide)
    rcases List.mem_append.mp hmem with hmem | hmem
    case inr => exact absurd hmem (by decide)
    rcases List.mem_append.mp hmem with hmem | hmem
    case inr => exact hp3 hmem
    rcases List.mem_append.mp hmem with hmem | hmem
    case inr => exact absurd hmem (by decide)
    exact hm3 hmem
  have hsplit := wire_split m p b hs hm2 hp2 (fun h hm => (hh h hm).1) hb1
  have hstrip : stripNul (mkWire m p hs b) = mkWire m p hs b :=
    stripNul_id _ hnul
  have hlast : ∀ (t : List Str) (a : Str),
      ((a :: (t ++ [[], b])).getLast?).getD [] = b := by
    intro t
    induction t with
    | nil => intro a; rfl
    | cons h t ih => intro a; simpa [List.getLast?_cons_cons] using ih h
  simp only [parse, hstrip, hsplit, reqLine_tokens m p hm1 hp1]
  simp [hlast hs]

/-- Exhaustive shape of a `parse` run: either the request line has at
least two space-separated tokens and parsing succeeds, or it has exactly
one token and parsing fails with the missing-path error.  (The "invalid
http data" and "missing method" branches never fire.) -/
theorem parse_shape (d : Str) :
    (∃ r, parse d = .ok r ∧ 2 ≤ (reqLineToks d).length) ∨
    (parse d = .error .missingPath ∧ (reqLineToks d).length = 1) := by
  cases hs : splitPair CRc LFc (stripNul d) with
  | nil => exact absurd hs (splitPair_ne_nil _ _ _)
  | cons line rest =>
    have htoks : reqLineToks d = splitOne SPc line := by
      rw [reqLineToks, hs]
      rfl
    cases ht : splitOne SPc line with
    | nil => exact absurd ht (splitOne_ne_nil _ _)
    | cons t0 ts =>
      cases ts with
      | nil =>
        right
        constructor
        · simp [parse, hs, ht]
        · rw [htoks, ht]
          rfl
      | cons t1 ts2 =>
        left
        refine ⟨{ path := t1, method := t0, headers := rest.foldl hdrStep [], body := (line :: rest).getLastD [] }, ?_, ?_⟩
        · simp [parse, hs, ht]
        · rw [htoks, ht]
          simp

/-! Lemmas relating `match_route` to the specification-side matcher. -/

theorem route_matches_wf (pat path : Str) (h : wf_pat pat = true) :
    route_matches pat path = some (spec_matches pat path) := by
  by_cases hc : containsSub markS pat = true
  · have hsuf : markS.isSuffixOf pat = true := by
      rw [wf_pat, hc] at h
      simpa using h
    rw [route_matches, if_pos hc, strip_suffix, if_pos hsuf,
      spec_matches, if_pos hsuf]
  · have hc2 : ¬(containsSub markS pat = true) := hc
    have hsuf : ¬(markS.isSuffixOf pat = true) := fun hsf =>
      hc2 (containsSub_of_isSuffixOf _ _ hsf)
    rw [route_matches, if_neg hc2, spec_matches, if_neg hsuf]

theorem match_route_find (path : Str) :
    ∀ routes : List Route, (∀ r ∈ routes, wf_pat r.path = true) →
      match_route routes path =
        (match routes.find? (fun r => spec_matches r.path path) with
         | some r => MatchOutcome.matched r
         | none => MatchOutcome.unmatched) := by
  intro routes
  induction routes with
  | nil => intro; rfl
  | cons r rs ih =>
    intro h
    have hr := route_matches_wf r.path path (h r (by simp))
    have hrs : ∀ x ∈ rs, wf_pat x.path = true := fun x hx => h x (by simp [hx])
    have step : match_route (r :: rs) path =
        (match route_matches r.path path with
         | none => .panicked
         | some true => .matched r
         | some false => match_route rs path) := rfl
    rw [step, hr]
    by_cases hm : spec_matches r.path path = true
    · rw [hm, @List.find?_cons_of_pos _ (fun x => spec_matches x.path path) r rs hm]
    · have hm2 : spec_matches r.path path = false := by simpa using hm
      rw [hm2,
        @List.find?_cons_of_neg _ (fun x => spec_matches x.path path) r rs
          (by simp [hm2]),
        ih hrs]

/-! The claims. -/

/-- C1: Route matching is first-match in registration order: for every
route table (with well-formed wildcard patterns) and every request path,
`match_route` returns the first registered route whose pattern matches
(literal patterns by exact equality, wildcard patterns by prefix), never
a later or more specific one; in particular, with routes registered in
the order ["/te:?", "/test"], a request for "/test" matches the wildcard
route "/te:?" and never the literal route "/test", even though the
literal route is an exact match. -/
theorem claim_C1_first_match :
    (∀ (routes : List Route) (path : Str),
        (∀ r ∈ routes, wf_pat r.path = true) →
        match_route routes path =
          (match routes.find? (fun r => spec_matches r.path path) with
           | some r => MatchOutcome.matched r
           | none => MatchOutcome.unmatched)) ∧
    match_route [rteWild, rteLit] (("/test").data) = .matched rteWild ∧
    spec_matches rteLit.path (("/test").data) = true := by
  refine ⟨?_, rfl, rfl⟩
  intro routes path h
  exact match_route_find path routes h

/-- Witness for C1 at the doc example's table: the first (wildcard)
route is selected for "/test". -/
theorem claim_C1_first_match_w :
    match_route [rteWild, rteLit] (("/test").data) =
      (match List.find? (fun r => spec_matches r.path (("/test").data))
          [rteWild, rteLit] with
       | some r => MatchOutcome.matched r
       | none => MatchOutcome.unmatched) :=
  claim_C1_first_match.1 [rteWild, rteLit] (("/test").data) (by decide)

/-- C2 counterexample: a pattern with a mid-pattern wildcard marker is
accepted by `handle_func` without any check, and matching any request
path against it then panics at request time — the claim's
registration-time rejection does not happen. -/
theorem claim_C2_cex :
    (handle_func router0 (("/a:?b").data) hDummy []).routes = [badRoute] ∧
    match_route [badRoute] (("/a").data) = .panicked :=
  ⟨rfl, rfl⟩

/-- C2 (amended): registration accepts any pattern unchecked, appending
the route verbatim; a table whose patterns are all well formed (marker
only as a suffix) never panics during matching; a mid-pattern marker
panics at request time, not at registration. -/
theorem claim_C2_amended :
    (∀ (rt : Router) (p : Str) (h : Handler) (ms : List Str),
        (handle_func rt p h ms).routes =
          rt.routes ++ [{ path := p, methods := ms, handler := h }]) ∧
    (∀ (routes : List Route) (path : Str),
        (∀ r ∈ routes, wf_pat r.path = true) →
        match_route routes path ≠ .panicked) := by
  constructor
  · intro rt p h ms
    rfl
  · intro routes path h
    rw [match_route_find path routes h]
    cases List.find? (fun r => spec_matches r.path path) routes <;> simp

/-- Witness for C2 (amended): a concrete registration and a concrete
well-formed table that does not panic. -/
theorem claim_C2_amended_w :
    (handle_func router0 (("/te:?").data) hDummy [("GET").data]).routes =
      [{ path := ("/te:?").data, methods := [("GET").data], handler := hDummy }] ∧
    match_route [rteWild] (("/test").data) ≠ .panicked :=
  ⟨claim_C2_amended.1 router0 (("/te:?").data) hDummy [("GET").data],
   claim_C2_amended.2 [rteWild] (("/test").data) (by decide)⟩

/-- C3 counterexample: for a request matching no route, the served
response is built by `Response::new(404, "page not found")`, whose body
is "page not found" — not an empty body as the claim states. -/
theorem claim_C3_cex :
    serve_dispatch [] req404 =
      some (Response.new 404 (("page not found").data)) ∧
    (Response.new 404 (("page not found").data)).data ≠ none := by
  constructor
  · rfl
  · simp [Response.new]

/-- C3 (amended): for every request whose path matches no registered
route, the server responds with status 404 and body "page not found"
(with text/plain and Content-Length headers attached by
`Response::new`), rather than an empty body. -/
theorem claim_C3_amended :
    ∀ (routes : List Route) (req : Request),
      match_route routes req.path = .unmatched →
      serve_dispatch routes req =
        some (Response.new 404 (("page not found").data)) := by
  intro routes req h
  simp [serve_dispatch, h, not_found_handler]

/-- Witness for C3 (amended) at a concrete route table and request. -/
theorem claim_C3_amended_w :
    serve_dispatch [rteLit] req404 =
      some (Response.new 404 (("page not found").data)) :=
  claim_C3_amended [rteLit] req404 (by rfl)

/-- C4 counterexample: for a request matching a route's path with a
disallowed method, the served response is built by
`Response::new(405, "method not allowed")`, whose body is
"method not allowed" — not an empty body as the claim states. -/
theorem claim_C4_cex :
    serve_dispatch [r405x] reqPost =
      some (Response.new 405 (("method not allowed").data)) ∧
    (Response.new 405 (("method not allowed").data)).data ≠ none := by
  constructor
  · rfl
  · simp [Response.new]

/-- C4 (amended): for every request whose path matches a registered
route but whose method is not in that route's allowed list, the server
responds with status 405 and body "method not allowed" (with text/plain
and Content-Length headers attached by `Response::new`), rather than an
empty body. -/
theorem claim_C4_amended :
    ∀ (routes : List Route) (req : Request) (r : Route),
      match_route routes req.path = .matched r →
      r.methods.contains req.method = false →
      serve_dispatch routes req =
        some (Response.new 405 (("method not allowed").data)) := by
  intro routes req r h hc
  simp only [serve_dispatch, h, hc, Bool.not_false, if_true]
  rfl

/-- Witness for C4 (amended): POST against the GET-only wildcard
route. -/
theorem claim_C4_amended_w :
    serve_dispatch [rteWild]
      { path := ("/test").data, method := ("POST").data,
        headers := [], body := [] } =
      some (Response.new 405 (("method not allowed").data)) :=
  claim_C4_amended [rteWild]
    { path := ("/test").data, method := ("POST").data,
      headers := [], body := [] }
    rteWild (by rfl) (by decide)

/-- C5: for every well-formed request of the shape
`<METHOD> <PATH> HTTP/1.1\r\n...headers...\r\n\r\n<body>` (tokens free
of separators and NUL bytes, body free of "\r\n"), decoding succeeds
and yields a Request whose method equals the first space-separated
token of the request line, whose path equals the second token, whose
body exactly equals the input body segment, and whose headers map
contains an entry for every syntactically valid "Name: Value" line. -/
theorem claim_C5_decode_wellformed (m p b : Str) (hs : List Str)
    (hm1 : SPc ∉ m) (hm2 : CRc ∉ m) (hm3 : NULc ∉ m)
    (hp1 : SPc ∉ p) (hp2 : CRc ∉ p) (hp3 : NULc ∉ p)
    (hh : ∀ ln ∈ hs, CRc ∉ ln ∧ NULc ∉ ln)
    (hb1 : CRc ∉ b) (hb2 : NULc ∉ b) :
    (parse (mkWire m p hs b)).toOption.map Request.method = some m ∧
    (parse (mkWire m p hs b)).toOption.map Request.path = some p ∧
    (parse (mkWire m p hs b)).toOption.map Request.body = some b ∧
    ∀ ln ∈ hs, ∀ k v, split_oncePair COLc SPc ln = some (k, v) →
      ((parse (mkWire m p hs b)).toOption.bind
        (fun r => lookupH r.headers k)).isSome = true := by
  have hpar := parse_mkWire m p b hs hm1 hm2 hm3 hp1 hp2 hp3 hh hb1 hb2
  rw [hpar]
  refine ⟨rfl, rfl, rfl, ?_⟩
  intro ln hln k v hsp
  show (lookupH ((hs ++ [[], b]).foldl hdrStep []) k).isSome = true
  rw [lookup_foldl_hdrStep]
  exact lastAux_isSome_of_mem _ _ k v ln (List.mem_append_left _ hln) hsp

/-- Witness for C5 on the concrete request
"GET /p HTTP/1.1\r\nHost: x\r\n\r\nok". -/
theorem claim_C5_decode_wellformed_w :
    (parse wireW).toOption.map Request.method = some (("GET").data) ∧
    (parse wireW).toOption.map Request.path = some (("/p").data) ∧
    (parse wireW).toOption.map Request.body = some (("ok").data) ∧
    ((parse wireW).toOption.bind
      (fun r => lookupH r.headers (("Host").data))).isSome = true := by
  obtain ⟨h1, h2, h3, h4⟩ :=
    claim_C5_decode_wellformed (("GET").data) (("/p").data) (("ok").data)
      [("Host: x").data] (by decide) (by decide) (by decide) (by decide)
      (by decide) (by decide) (by decide) (by decide) (by decide)
  exact ⟨h1, h2, h3,
    h4 (("Host: x").data) (by simp) (("Host").data) (("x").data) (by decide)⟩

/-- C6: decoding fails exactly when the input bytes are not valid UTF-8
or the request line (the text before the first "\r\n" of the
NUL-stripped text) contains fewer than two space-separated tokens;
every other input decodes successfully. -/
theorem claim_C6_error_iff :
    ∀ data : List Nat,
      isOkE (from_utf8 data) = false ↔
        utf8Decode data = none ∨
        ∃ cs, utf8Decode data = some cs ∧ (reqLineToks cs).length < 2 := by
  intro data
  cases hu : utf8Decode data with
  | none => simp [from_utf8, hu, isOkE]
  | some cs =>
    have hfu : from_utf8 data = parse cs := by rw [from_utf8, hu]
    rw [hfu]
    simp only [hu, reduceCtorEq, Option.some.injEq, false_or]
    constructor
    · intro hko
      rcases parse_shape cs with ⟨r, hok, hlen⟩ | ⟨herr, hlen⟩
      · rw [hok] at hko
        exact absurd hko (by simp [isOkE])
      · exact ⟨cs, rfl, by omega⟩
    · rintro ⟨cs2, he, hlen⟩
      rcases he with rfl
      rcases parse_shape cs with ⟨r, hok, hlen2⟩ | ⟨herr, hlen2⟩
      · omega
      · rw [herr]
        rfl

/-- C7: the status line written by the server is exactly
"HTTP/1.1 <code> <reason>\r\n" where the reason phrase is "OK" when the
status code is 200 and a single space character for every other
code. -/
theorem claim_C7_status_line :
    status_line 200 = ("HTTP/1.1 200 OK\r\n").data ∧
    ∀ c : Nat, c ≠ 200 →
      status_line c =
        ("HTTP/1.1 ").data ++ natStr c ++ (" ").data ++ (" ").data ++ rnS := by
  constructor
  · decide
  · intro c hc
    rw [status_line, if_neg hc]

/-- Witness for C7 at code 404: the reason phrase is a single space. -/
theorem claim_C7_status_line_w :
    status_line 404 = ("HTTP/1.1 404  \r\n").data := by
  have h := claim_C7_status_line.2 404 (by decide)
  rw [h]
  decide

/-- C9 counterexample: on "GET / HTTP/1.1\r\n\r\nFoo: bar" the line
"Foo: bar" sits after the header block's terminating blank line (it is
the body segment), yet the parsed headers map contains the entry
Foo ↦ bar — header parsing does not stop at the first blank line. -/
theorem claim_C9_cex :
    splitPair CRc LFc (stripNul wireBodyHdr) =
      [("GET / HTTP/1.1").data, [], ("Foo: bar").data] ∧
    (parse wireBodyHdr).toOption.map Request.body =
      some (("Foo: bar").data) ∧
    ((parse wireBodyHdr).toOption.bind
      (fun r => lookupH r.headers (("Foo").data))) = some (("bar").data) :=
  ⟨rfl, rfl, rfl⟩

/-- C9 (amended): header parsing considers every line after the request
line — the entire tail of the "\r\n"-split buffer, including lines after
the first blank line; each line is split at its first ": " into
(name, value); lines without the separator are silently ignored; and
when several lines carry the same name, the last one's value is the one
held by the resulting map. -/
theorem claim_C9_amended :
    ∀ (d : Str) (r : Request) (k : Str),
      parse d = .ok r →
      lookupH r.headers k =
        lastAux (splitPair CRc LFc (stripNul d)).tail none k := by
  intro d r k h
  cases hs : splitPair CRc LFc (stripNul d) with
  | nil => exact absurd hs (splitPair_ne_nil _ _ _)
  | cons line rest =>
    simp only [parse, hs] at h
    cases ht : (splitOne SPc line).get? 0 with
    | none => rw [ht] at h; exact absurd h (by simp)
    | some t0 =>
      rw [ht] at h
      cases ht1 : (splitOne SPc line).get? 1 with
      | none => rw [ht1] at h; exact absurd h (by simp)
      | some t1 =>
        rw [ht1] at h
        simp only [Except.ok.injEq] at h
        rw [← h]
        show lookupH (rest.foldl hdrStep []) k = lastAux rest none k
        rw [lookup_foldl_hdrStep]
        rfl

/-- Witness for C9 (amended) on
"GET / HTTP/1.1\r\nA: 1\r\nA: 2": the map holds the later value "2"
for the duplicated name "A". -/
theorem claim_C9_amended_w :
    lookupH reqDup.headers (("A").data) =
      lastAux
        (splitPair CRc LFc
          (stripNul (("GET / HTTP/1.1\r\nA: 1\r\nA: 2").data))).tail
        none (("A").data) :=
  claim_C9_amended (("GET / HTTP/1.1\r\nA: 1\r\nA: 2").data) reqDup
    (("A").data) (by rfl)

/-- C10: the "invalid http data" and "missing method in request" error
branches of `Request::parse` are unreachable: splitting any string on
"\r\n" yields at least one segment and splitting any string on " "
yields at least one token, so parse (on valid UTF-8 text) can fail only
through the missing-path check, and a one-token request line yields
exactly the "missing path in request" error. -/
theorem claim_C10_unreachable :
    ∀ d : Str,
      splitPair CRc LFc d ≠ [] ∧
      splitOne SPc d ≠ [] ∧
      parse d ≠ .error .invalidHttpData ∧
      parse d ≠ .error .missingMethod ∧
      ((reqLineToks d).length = 1 → parse d = .error .missingPath) := by
  intro d
  refine ⟨splitPair_ne_nil _ _ _, splitOne_ne_nil _ _, ?_, ?_, ?_⟩
  · rcases parse_shape d with ⟨r, hok, hlen⟩ | ⟨herr, hlen⟩
    · rw [hok]
      simp
    · rw [herr]
      simp
  · rcases parse_shape d with ⟨r, hok, hlen⟩ | ⟨herr, hlen⟩
    · rw [hok]
      simp
    · rw [herr]
      simp
  · intro h1
    rcases parse_shape d with ⟨r, hok, hlen⟩ | ⟨herr, hlen⟩
    · omega
    · exact herr

/-- Witness for C10: a request line with a single token fails with
precisely the missing-path error. -/
theorem claim_C10_unreachable_w :
    parse (("GETnospace").data) = .error .missingPath :=
  (claim_C10_unreachable (("GETnospace").data)).2.2.2.2 (by decide)

/-- C8 counterexample: the response built by
`Response::json(200, {"foo": "bar"})` carries a body, yet its encoded
output contains no Content-Length header at all. -/
theorem claim_C8_cex :
    (Response.json 200 [((("foo").data), (("bar").data))]).data ≠ none ∧
    containsSub (("Content-Length").data)
      (Response.to_string
        (Response.json 200 [((("foo").data), (("bar").data))])) = false := by
  constructor
  · decide
  · decide

/-- C8 (amended): responses built by `Response::new` carry
Content-Type: text/plain and Content-Length equal to the byte length of
the serialized body, and their encoded output contains the
Content-Length header line; `Body::write_headers` of `src/main.rs`
likewise always writes a correct Content-Length; but responses built by
`Response::json` carry only Content-Type: application/json and no
Content-Length header, although they have a body. -/
theorem claim_C8_amended :
    (∀ (code : Nat) (d : Str),
        lookupH (Response.new code d).headers (("Content-Type").data) =
          some (("text/plain").data) ∧
        lookupH (Response.new code d).headers (("Content-Length").data) =
          some (natStr (utf8Len d))) ∧
    (∀ (code : Nat) (m : List (Str × Str)),
        lookupH (Response.json code m).headers (("Content-Type").data) =
          some (("application/json").data) ∧
        lookupH (Response.json code m).headers (("Content-Length").data) =
          none) ∧
    (∀ (contents : List Nat) (mime : Str),
        containsSub
          (("Content-Length: ").data ++ natStr contents.length ++ rnS)
          (write_headers contents mime) = true) ∧
    (∀ (code : Nat) (d : Str),
        containsSub
          (("Content-Length: ").data ++ natStr (utf8Len d) ++ rnS)
          (Response.to_string (Response.new code d)) = true) := by
  have hne : (("Content-Type").data : Str) ≠ ("Content-Length").data := by
    decide
  refine ⟨?_, ?_, ?_, ?_⟩
  · intro code d
    constructor
    · show lookupH
          (insertH (insertH [] (("Content-Type").data) (("text/plain").data))
            (("Content-Length").data) (natStr (utf8Len d)))
          (("Content-Type").data) = _
      rw [lookup_insertH, if_neg (fun he => hne he.symm),
        lookup_insertH, if_pos rfl]
    · show lookupH
          (insertH (insertH [] (("Content-Type").data) (("text/plain").data))
            (("Content-Length").data) (natStr (utf8Len d)))
          (("Content-Length").data) = _
      rw [lookup_insertH, if_pos rfl]
  · intro code m
    constructor
    · show lookupH
          (insertH [] (("Content-Type").data) (("application/json").data))
          (("Content-Type").data) = _
      rw [lookup_insertH, if_pos rfl]
    · show lookupH
          (insertH [] (("Content-Type").data) (("application/json").data))
          (("Content-Length").data) = _
      rw [lookup_insertH, if_neg hne]
      rfl
  · intro contents mime
    have hx : write_headers contents mime =
        (("Content-Type: ").data ++ mime ++ rnS) ++
          ((("Content-Length: ").data ++ natStr contents.length ++ rnS)
            ++ rnS) := by
      simp [write_headers, List.append_assoc]
    rw [hx]
    exact containsSub_mid _ _ _
  · intro code d
    have hkey : (("Content-Length: ").data : Str) =
        ("Content-Length").data ++ [COLc, SPc] := by decide
    have hkey2 : (("Content-Type: ").data : Str) =
        ("Content-Type").data ++ [COLc, SPc] := by decide
    have hins : (Response.new code d).headers =
        [((("Content-Type").data), (("text/plain").data)),
         ((("Content-Length").data), natStr (utf8Len d))] := by
      show insertH
          (insertH [] (("Content-Type").data) (("text/plain").data))
          (("Content-Length").data) (natStr (utf8Len d)) = _
      have step : insertH
          [((("Content-Type").data), (("text/plain").data))]
          (("Content-Length").data) (natStr (utf8Len d)) =
          if ("Content-Type").data = ("Content-Length").data then
            ((("Content-Length").data), natStr (utf8Len d)) :: []
          else ((("Content-Type").data), (("text/plain").data)) ::
            insertH [] (("Content-Length").data) (natStr (utf8Len d)) := rfl
      rw [show insertH ([] : List (Str × Str)) (("Content-Type").data)
            (("text/plain").data) =
          [((("Content-Type").data), (("text/plain").data))] from rfl,
        step, if_neg hne]
      rfl
    have hx : Response.to_string (Response.new code d) =
        ((("Content-Type: ").data ++ ("text/plain").data ++ rnS)) ++
          ((("Content-Length: ").data ++ natStr (utf8Len d) ++ rnS) ++
            (rnS ++ (d ++ rnS))) := by
      rw [Response.to_string, hins,
        show (Response.new code d).data = some d from rfl]
      simp [hkey, hkey2, COLc, SPc, List.append_assoc]
    rw [hx]
    exact containsSub_mid _ _ _

end HttpSrv
